import Mathlib

/-!
Verification of the recipe-app-api backend specification.

The repository's visible source consists of the Django test suites
(`src/app/recipe/tests/tests_recipe_api.py`, `src/app/core/tests/test_admin.py`)
and a management entry point; the application code itself (models in
`core.models`, serializers in `recipe.serializers`, viewsets, admin
registration) is not present.  Following the specification, the data model
and the endpoint behaviours are modelled here as a shallow embedding: an
in-memory database state and pure request handlers returning HTTP status
codes and bodies.
-/

namespace RecipeApp

/-- Modelled from the spec: the `User` model of the missing `core.models`
module — email-based identity, a display name, superuser flag. -/
structure User where
  id : Nat
  email : String
  name : String
  isSuperuser : Bool
deriving DecidableEq

/-- Modelled from the spec: the `Tag` model of the missing `core.models`
module — a per-user named entity. -/
structure Tag where
  id : Nat
  user : Nat
  name : String
deriving DecidableEq

/-- Modelled from the spec: the `Ingredient` model of the missing
`core.models` module — same shape as `Tag`. -/
structure Ingredient where
  id : Nat
  user : Nat
  name : String
deriving DecidableEq

/-- Modelled from the spec: the `Recipe` model of the missing `core.models`
module — owned by a user; title, time, price (in hundredths), an optional
image reference and many-to-many links (by id) to tags and ingredients. -/
structure Recipe where
  id : Nat
  user : Nat
  title : String
  time_minutes : Nat
  price : Nat
  tags : List Nat
  ingredients : List Nat
  image : Option String
deriving DecidableEq

/-- Modelled from the spec: the relational database behind the Django ORM —
tables for users, tags, ingredients and recipes, plus the auto-increment
counter for recipe primary keys. -/
structure DB where
  users : List User
  tags : List Tag
  ingredients : List Ingredient
  recipes : List Recipe
  nextId : Nat
deriving DecidableEq

/-- Modelled from the spec: the list serialization of a recipe
(`RecipeSerializer` of the missing `recipe.serializers` module): scalar
fields plus tags and ingredients by ids only. -/
structure RecipeData where
  id : Nat
  title : String
  time_minutes : Nat
  price : Nat
  tags : List Nat
  ingredients : List Nat
deriving DecidableEq

/-- Modelled from the spec: the detail serialization of a recipe
(`RecipeDetailSerializer` of the missing `recipe.serializers` module):
scalar fields plus nested tag and ingredient objects. -/
structure RecipeDetailData where
  id : Nat
  title : String
  time_minutes : Nat
  price : Nat
  tags : List Tag
  ingredients : List Ingredient
deriving DecidableEq

/-- Modelled from the spec: mapping one recipe through the list
serializer. -/
def serializeRecipe (r : Recipe) : RecipeData :=
  ⟨r.id, r.title, r.time_minutes, r.price, r.tags, r.ingredients⟩

/-- Modelled from the spec: mapping one recipe through the detail
serializer, resolving tag and ingredient ids to the owning rows. -/
def serializeDetail (db : DB) (r : Recipe) : RecipeDetailData :=
  ⟨r.id, r.title, r.time_minutes, r.price,
    db.tags.filter (fun t => r.tags.contains t.id),
    db.ingredients.filter (fun i => r.ingredients.contains i.id)⟩

/-- Ordering used by the recipe list endpoint: descending primary key. -/
def recipeGE (a b : Recipe) : Prop := b.id ≤ a.id

instance : DecidableRel recipeGE := fun a b => Nat.decLe b.id a.id

instance : IsTotal Recipe recipeGE :=
  ⟨fun a b => (Nat.le_total b.id a.id).imp id id⟩

instance : IsTrans Recipe recipeGE :=
  ⟨fun _ _ _ h1 h2 => Nat.le_trans h2 h1⟩

/-- Modelled from the spec: `order_by(-id)` of the missing recipe viewset —
sort recipes by descending id. -/
def sortByIdDesc (l : List Recipe) : List Recipe :=
  List.insertionSort recipeGE l

/-- Modelled from the spec: `GET /recipes` of the missing recipe viewset.
Without an authenticated user it fails with 401 Unauthorized; otherwise it
returns 200 with the list serialization of the caller's recipes ordered by
descending id. -/
def listRecipes (auth : Option Nat) (db : DB) : Nat × Option (List RecipeData) :=
  match auth with
  | none => (401, none)
  | some u =>
      (200, some ((sortByIdDesc (db.recipes.filter (fun r => r.user == u))).map
        serializeRecipe))

/-- Modelled from the spec: the payload of `POST /recipes` —
`{title, time_minutes, price, tags?, ingredients?}`, tags and ingredients
given as lists of ids. -/
structure CreatePayload where
  title : String
  time_minutes : Nat
  price : Nat
  tags : Option (List Nat)
  ingredients : Option (List Nat)
deriving DecidableEq

/-- Ids of the tags owned by user `u`. -/
def ownedTagIds (db : DB) (u : Nat) : List Nat :=
  (db.tags.filter (fun t => t.user == u)).map Tag.id

/-- Ids of the ingredients owned by user `u`. -/
def ownedIngredientIds (db : DB) (u : Nat) : List Nat :=
  (db.ingredients.filter (fun i => i.user == u)).map Ingredient.id

/-- Modelled from the spec: `POST /recipes` of the missing recipe viewset.
Creates a recipe owned by the caller from the payload; omitted tag and
ingredient lists default to empty; referenced tag and ingredient ids must
belong to the caller, otherwise validation fails with 400.  On success the
endpoint answers 201 with the id of the persisted recipe. -/
def createRecipe (auth : Option Nat) (p : CreatePayload) (db : DB) :
    (Nat × Option Nat) × DB :=
  match auth with
  | none => ((401, none), db)
  | some u =>
      let tagIds := p.tags.getD []
      let ingIds := p.ingredients.getD []
      if tagIds.all (fun i => (ownedTagIds db u).contains i) &&
         ingIds.all (fun i => (ownedIngredientIds db u).contains i) then
        let r : Recipe :=
          ⟨db.nextId, u, p.title, p.time_minutes, p.price, tagIds, ingIds, none⟩
        ((201, some db.nextId),
          { db with recipes := db.recipes ++ [r], nextId := db.nextId + 1 })
      else ((400, none), db)

/-- Modelled from the spec: the payload of `PATCH /recipes/{id}` — every
field optional; absent fields are left untouched. -/
structure PatchPayload where
  title : Option String
  time_minutes : Option Nat
  price : Option Nat
  tags : Option (List Nat)
  ingredients : Option (List Nat)
deriving DecidableEq

/-- Modelled from the spec: applying a partial update to one recipe row —
each field named in the payload is overwritten, every unspecified field is
unchanged; a supplied `tags` list fully replaces the tag set. -/
def applyPatch (p : PatchPayload) (r : Recipe) : Recipe :=
  { r with
    title := p.title.getD r.title
    time_minutes := p.time_minutes.getD r.time_minutes
    price := p.price.getD r.price
    tags := p.tags.getD r.tags
    ingredients := p.ingredients.getD r.ingredients }

/-- Looks up the recipe with primary key `rid` owned by user `u`. -/
def findOwned (db : DB) (u rid : Nat) : Option Recipe :=
  db.recipes.find? (fun x => x.id == rid && x.user == u)

/-- Replaces the recipe row with primary key `rid` by `r2`. -/
def replaceRecipe (db : DB) (rid : Nat) (r2 : Recipe) : DB :=
  { db with recipes := db.recipes.map (fun x => if x.id == rid then r2 else x) }

/-- Modelled from the spec: `PATCH /recipes/{id}` of the missing recipe
viewset.  401 without authentication, 404 when the caller owns no recipe
with that id, otherwise 200 after applying the partial update. -/
def patchRecipe (auth : Option Nat) (rid : Nat) (p : PatchPayload) (db : DB) :
    Nat × DB :=
  match auth with
  | none => (401, db)
  | some u =>
      match findOwned db u rid with
      | none => (404, db)
      | some r => (200, replaceRecipe db rid (applyPatch p r))

/-- Modelled from the spec: the payload of `PUT /recipes/{id}` — scalar
fields required; tag and ingredient lists optional and reset to the default
(empty) when omitted. -/
structure PutPayload where
  title : String
  time_minutes : Nat
  price : Nat
  tags : Option (List Nat)
  ingredients : Option (List Nat)
deriving DecidableEq

/-- Modelled from the spec: applying a full update to one recipe row —
scalar fields are taken from the payload and fields not included reset to
their default, so an omitted `tags` list clears the tag set. -/
def applyPut (p : PutPayload) (r : Recipe) : Recipe :=
  { r with
    title := p.title
    time_minutes := p.time_minutes
    price := p.price
    tags := p.tags.getD []
    ingredients := p.ingredients.getD [] }

/-- Modelled from the spec: `PUT /recipes/{id}` of the missing recipe
viewset.  401 without authentication, 404 when the caller owns no recipe
with that id, otherwise 200 after the full replace. -/
def putRecipe (auth : Option Nat) (rid : Nat) (p : PutPayload) (db : DB) :
    Nat × DB :=
  match auth with
  | none => (401, db)
  | some u =>
      match findOwned db u rid with
      | none => (404, db)
      | some r => (200, replaceRecipe db rid (applyPut p r))

/-- Modelled from the spec: `GET /recipes/{id}` of the missing recipe
viewset.  Returns 200 with the detail serialization (nested tags and
ingredients) of the recipe when the caller owns it, 404 otherwise, 401
without authentication. -/
def detailRecipe (auth : Option Nat) (rid : Nat) (db : DB) :
    Nat × Option RecipeDetailData :=
  match auth with
  | none => (401, none)
  | some u =>
      match findOwned db u rid with
      | none => (404, none)
      | some r => (200, some (serializeDetail db r))

/-- Modelled from the spec: a multipart file sent to the image-upload
endpoint; whether it parses as an image is decided by the external image
library, modelled as a boolean attribute of the file. -/
structure UploadFile where
  filename : String
  isValidImage : Bool
deriving DecidableEq

/-- Modelled from the spec: the storage path of an uploaded recipe image. -/
def imagePath (rid : Nat) (f : UploadFile) : String :=
  String.append (String.append "uploads/recipe/" (toString rid))
    (String.append "/" f.filename)

/-- Modelled from the spec: `POST /recipes/{id}/upload-image` of the missing
recipe viewset.  A valid image is stored on disk and referenced from the
recipe, answered with 200 and the stored image reference under the `image`
key; an invalid image payload is answered with 400.  The file-storage area
is modelled as a list of stored paths. -/
def uploadImage (auth : Option Nat) (rid : Nat) (f : UploadFile) (db : DB)
    (disk : List String) : (Nat × Option String) × DB × List String :=
  match auth with
  | none => ((401, none), db, disk)
  | some u =>
      match findOwned db u rid with
      | none => ((404, none), db, disk)
      | some r =>
          if f.isValidImage then
            ((200, some (imagePath rid f)),
              replaceRecipe db rid { r with image := some (imagePath rid f) },
              imagePath rid f :: disk)
          else ((400, none), db, disk)

/-- Modelled from the spec: one user's row on the admin changelist page,
as the flat character text rendered into the response body — the user's
plain-text name followed by their email. -/
def renderUserRow (x : User) : List Char :=
  x.name.data ++ (' ' :: x.email.data) ++ ['\n']

/-- Modelled from the spec: the response body of the admin user-changelist
page, displaying name and email for all users. -/
def changelistBody (db : DB) : List Char :=
  (db.users.map renderUserRow).flatten

/-- Is the authenticated user an existing superuser? -/
def isAdmin (auth : Option Nat) (db : DB) : Bool :=
  match auth with
  | none => false
  | some uid =>
      match db.users.find? (fun x => x.id == uid) with
      | none => false
      | some x => x.isSuperuser

/-- Modelled from the spec: the admin user-changelist page
(`admin:core_user_changelist`).  An authenticated superuser gets 200 with a
body listing every user's name and email; anyone else is redirected. -/
def adminUserChangelist (auth : Option Nat) (db : DB) :
    Nat × Option (List Char) :=
  if isAdmin auth db then (200, some (changelistBody db)) else (302, none)

/-- Modelled from the spec: the admin user change page
(`admin:core_user_change`) renders successfully for any authenticated
superuser when the target user exists. -/
def adminUserChangePage (auth : Option Nat) (targetId : Nat) (db : DB) : Nat :=
  if isAdmin auth db then
    if db.users.any (fun x => x.id == targetId) then 200 else 404
  else 302

/-- Modelled from the spec: the admin user add page (`admin:core_user_add`)
renders successfully for any authenticated superuser. -/
def adminUserAddPage (auth : Option Nat) (db : DB) : Nat :=
  if isAdmin auth db then 200 else 302

/-! ## Concrete fixtures, mirroring the objects built by the test suites -/

/-- The superuser created by the admin test fixture. -/
def userAdmin : User := ⟨1, "admin@hotmail.com", "Admin", true⟩

/-- The regular user created by the test fixtures. -/
def userTest : User := ⟨2, "test@hotmail.com", "Test user full name", false⟩

/-- The tags created by the recipe test fixtures. -/
def tagVegan : Tag := ⟨1, 2, "Vegan"⟩

def tagDessert : Tag := ⟨2, 2, "Dessert"⟩

def tagMain : Tag := ⟨3, 2, "Main course"⟩

/-- The ingredients created by the recipe test fixtures. -/
def ingPrawns : Ingredient := ⟨1, 2, "Prawns"⟩

def ingGinger : Ingredient := ⟨2, 2, "Ginger"⟩

/-- A sample recipe owned by the regular user. -/
def recipeSample : Recipe := ⟨1, 2, "Sample recipe", 10, 500, [3], [], none⟩

/-- A recipe owned by another user. -/
def recipeOther : Recipe := ⟨2, 1, "Other users recipe", 10, 500, [], [], none⟩

/-- A concrete database populated like the test fixtures. -/
def dbW : DB where
  users := [userAdmin, userTest]
  tags := [tagVegan, tagDessert, tagMain]
  ingredients := [ingPrawns, ingGinger]
  recipes := [recipeSample, recipeOther]
  nextId := 3

/-- The basic creation payload of the test suite. -/
def payloadBasic : CreatePayload :=
  ⟨"Chocolate cheesecake", 30, 500, none, none⟩

/-- A creation payload naming two tag ids. -/
def payloadTags : CreatePayload :=
  ⟨"Avocado lime cheesecake", 60, 2000, some [1, 2], none⟩

/-- A creation payload naming two ingredient ids. -/
def payloadIngredients : CreatePayload :=
  ⟨"Thai prawn red curry", 30, 1000, none, some [1, 2]⟩

/-- A partial-update payload naming a title and one replacement tag. -/
def payloadPatch : PatchPayload :=
  ⟨some "Chicken tikka", none, none, some [2], none⟩

/-- A full-update payload without tags. -/
def payloadPut : PutPayload := ⟨"Spaghetti carbonara", 20, 500, none, none⟩

/-- A valid JPEG upload. -/
def jpegFile : UploadFile := ⟨"test.jpg", true⟩

/-- A non-image upload. -/
def notImageFile : UploadFile := ⟨"notImage", false⟩

/-! ## Helper lemmas -/

theorem mem_sortByIdDesc {a : Recipe} {l : List Recipe} :
    a ∈ sortByIdDesc l ↔ a ∈ l :=
  (List.perm_insertionSort recipeGE l).mem_iff

theorem pairwise_sortByIdDesc (l : List Recipe) :
    (sortByIdDesc l).Pairwise recipeGE :=
  List.sorted_insertionSort recipeGE l

theorem find?_map_replace (l : List Recipe) (rid u : Nat) (r r2 : Recipe)
    (hid : r2.id = rid) (hu : r2.user = u)
    (hf : l.find? (fun x => x.id == rid && x.user == u) = some r) :
    (l.map (fun x => if x.id == rid then r2 else x)).find?
      (fun x => x.id == rid && x.user == u) = some r2 := by
  induction l with
  | nil => simp at hf
  | cons x xs ih =>
      by_cases hx : x.id = rid
      · have hcond : (x.id == rid) = true := by simp [hx]
        have hpred : (r2.id == rid && r2.user == u) = true := by simp [hid, hu]
        simp only [List.map_cons, hcond, if_true]
        exact List.find?_cons_of_pos _ hpred
      · have hif : ¬((x.id == rid) = true) := by simp [hx]
        have hpred : ¬((x.id == rid && x.user == u) = true) := by simp [hx]
        simp only [List.map_cons, if_neg hif]
        rw [List.find?_cons_of_neg (p := fun y : Recipe => y.id == rid && y.user == u)
          _ hpred]
        rw [List.find?_cons_of_neg (p := fun y : Recipe => y.id == rid && y.user == u)
          _ hpred] at hf
        exact ih hf

theorem find?_append_of_left_false {α : Type} {p : α → Bool}
    (l1 l2 : List α) (h : ∀ x ∈ l1, p x = false) :
    (l1 ++ l2).find? p = l2.find? p := by
  induction l1 with
  | nil => rfl
  | cons x xs ih =>
      have hx : ¬(p x = true) := by
        intro hc
        exact absurd hc (by simp [h x (List.mem_cons_self x xs)])
      rw [List.cons_append, List.find?_cons_of_neg _ hx]
      exact ih (fun y hy => h y (List.mem_cons_of_mem x hy))

/-- The validation run by `createRecipe`: every referenced tag and
ingredient id belongs to the caller. -/
def createValid (u : Nat) (p : CreatePayload) (db : DB) : Bool :=
  (p.tags.getD []).all (fun i => (ownedTagIds db u).contains i) &&
  (p.ingredients.getD []).all (fun i => (ownedIngredientIds db u).contains i)

/-- The recipe row persisted by a successful `createRecipe`. -/
def createdRow (u : Nat) (p : CreatePayload) (db : DB) : Recipe :=
  ⟨db.nextId, u, p.title, p.time_minutes, p.price, p.tags.getD [],
    p.ingredients.getD [], none⟩

theorem createRecipe_eq_of_valid (db : DB) (u : Nat) (p : CreatePayload)
    (h : createValid u p db = true) :
    createRecipe (some u) p db = ((201, some db.nextId),
      { db with recipes := db.recipes ++ [createdRow u p db],
                nextId := db.nextId + 1 }) := by
  have h2 : (((p.tags.getD []).all fun i => (ownedTagIds db u).contains i) &&
      (p.ingredients.getD []).all fun i =>
        (ownedIngredientIds db u).contains i) = true := h
  simp only [createRecipe, createdRow]
  rw [if_pos h2]

theorem createRecipe_eq_of_invalid (db : DB) (u : Nat) (p : CreatePayload)
    (h : createValid u p db = false) :
    createRecipe (some u) p db = ((400, none), db) := by
  have h2 : (((p.tags.getD []).all fun i => (ownedTagIds db u).contains i) &&
      (p.ingredients.getD []).all fun i =>
        (ownedIngredientIds db u).contains i) = false := h
  simp only [createRecipe]
  rw [if_neg (by rw [h2]; exact Bool.false_ne_true)]

/-! ## Claims -/

/-- Claim C1: for every authenticated user A, GET /recipes returns status
200 with a body equal to the list-serialization of exactly A's recipes
ordered by descending id; a recipe created by any other user B is never
included in A's list response. -/
theorem listRecipes_scoped_to_owner (db : DB) (u : Nat)
    (hnd : (db.recipes.map Recipe.id).Nodup) :
    (listRecipes (some u) db).1 = 200 ∧
    ∃ body, (listRecipes (some u) db).2 = some body ∧
      (∀ d ∈ body, ∃ r, r ∈ db.recipes ∧ r.user = u ∧ d = serializeRecipe r) ∧
      (∀ r, r ∈ db.recipes → r.user = u → serializeRecipe r ∈ body) ∧
      (∀ r, r ∈ db.recipes → r.user ≠ u → serializeRecipe r ∉ body) ∧
      body.Pairwise (fun a b => b.id ≤ a.id) := by
  refine ⟨rfl, (sortByIdDesc (db.recipes.filter (fun r => r.user == u))).map
      serializeRecipe, rfl, ?_, ?_, ?_, ?_⟩
  · intro d hd
    rcases List.mem_map.mp hd with ⟨r, hr, hser⟩
    rcases List.mem_filter.mp (mem_sortByIdDesc.mp hr) with ⟨hmem, huser⟩
    exact ⟨r, hmem, by simpa using huser, hser.symm⟩
  · intro r hmem huser
    exact List.mem_map.mpr ⟨r, mem_sortByIdDesc.mpr
      (List.mem_filter.mpr ⟨hmem, by simp [huser]⟩), rfl⟩
  · intro r hmem huser hin
    rcases List.mem_map.mp hin with ⟨r2, hr2, hser⟩
    rcases List.mem_filter.mp (mem_sortByIdDesc.mp hr2) with ⟨hmem2, huser2⟩
    have hid : r2.id = r.id := congrArg RecipeData.id hser
    have heq : r2 = r := List.inj_on_of_nodup_map hnd hmem2 hmem hid
    apply huser
    rw [← heq]
    simpa using huser2
  · refine List.pairwise_map.mpr ?_
    exact (pairwise_sortByIdDesc _).imp (fun h => h)

/-- Claim C2: for every request with no authenticated user, GET /recipes
fails with HTTP status 401 Unauthorized. -/
theorem listRecipes_requires_auth (db : DB) :
    listRecipes none db = (401, none) := rfl

/-- Claim C3: for every authenticated user, POST /recipes with a payload
of title, time_minutes and price and no tags or ingredients returns status
201 and persists a recipe whose title, time_minutes and price equal the
payload values and whose tag and ingredient sets are empty, owned by the
caller. -/
theorem createRecipe_basic (db : DB) (u : Nat) (p : CreatePayload)
    (ht : p.tags = none) (hi : p.ingredients = none) :
    (createRecipe (some u) p db).1 = (201, some db.nextId) ∧
    ∃ r, r ∈ (createRecipe (some u) p db).2.recipes ∧
      r.id = db.nextId ∧ r.user = u ∧ r.title = p.title ∧
      r.time_minutes = p.time_minutes ∧ r.price = p.price ∧
      r.tags = [] ∧ r.ingredients = [] := by
  rcases p with ⟨title, tm, pr, tg, ing⟩
  cases ht
  cases hi
  refine ⟨rfl, ⟨db.nextId, u, title, tm, pr, [], [], none⟩, ?_,
    rfl, rfl, rfl, rfl, rfl, rfl, rfl⟩
  exact List.mem_append_right _ (List.mem_cons_self _ _)

theorem mem_ownedTagIds (db : DB) (u : Nat) (t : Tag)
    (hmem : t ∈ db.tags) (huser : t.user = u) :
    t.id ∈ ownedTagIds db u :=
  List.mem_map.mpr ⟨t, List.mem_filter.mpr ⟨hmem, by simp [huser]⟩, rfl⟩

theorem mem_ownedIngredientIds (db : DB) (u : Nat) (i : Ingredient)
    (hmem : i ∈ db.ingredients) (huser : i.user = u) :
    i.id ∈ ownedIngredientIds db u :=
  List.mem_map.mpr ⟨i, List.mem_filter.mpr ⟨hmem, by simp [huser]⟩, rfl⟩

/-- Claim C4: for every authenticated user owning tags t1 and t2 (or
ingredients i1 and i2), POST /recipes with a payload referencing the two
ids returns status 201 and persists a recipe whose tag set (respectively
ingredient set) contains exactly those two entities, regardless of the
order of the ids in the payload. -/
theorem createRecipe_two_refs (db : DB) (u : Nat) (p q : CreatePayload)
    (t1 t2 : Tag) (i1 i2 : Ingredient)
    (ht1 : t1 ∈ db.tags) (ht2 : t2 ∈ db.tags)
    (ht1u : t1.user = u) (ht2u : t2.user = u) (htne : t1.id ≠ t2.id)
    (hpt : p.tags = some [t1.id, t2.id] ∨ p.tags = some [t2.id, t1.id])
    (hpi : p.ingredients = none)
    (hi1 : i1 ∈ db.ingredients) (hi2 : i2 ∈ db.ingredients)
    (hi1u : i1.user = u) (hi2u : i2.user = u) (hine : i1.id ≠ i2.id)
    (hqi : q.ingredients = some [i1.id, i2.id] ∨
           q.ingredients = some [i2.id, i1.id])
    (hqt : q.tags = none) :
    ((createRecipe (some u) p db).1.1 = 201 ∧
      ∃ r, r ∈ (createRecipe (some u) p db).2.recipes ∧ r.id = db.nextId ∧
        r.user = u ∧ r.tags.length = 2 ∧ r.tags.Nodup ∧
        (∀ x, x ∈ r.tags ↔ x = t1.id ∨ x = t2.id)) ∧
    ((createRecipe (some u) q db).1.1 = 201 ∧
      ∃ r, r ∈ (createRecipe (some u) q db).2.recipes ∧ r.id = db.nextId ∧
        r.user = u ∧ r.ingredients.length = 2 ∧ r.ingredients.Nodup ∧
        (∀ x, x ∈ r.ingredients ↔ x = i1.id ∨ x = i2.id)) := by
  have hc1 := mem_ownedTagIds db u t1 ht1 ht1u
  have hc2 := mem_ownedTagIds db u t2 ht2 ht2u
  have hd1 := mem_ownedIngredientIds db u i1 hi1 hi1u
  have hd2 := mem_ownedIngredientIds db u i2 hi2 hi2u
  have hvp : createValid u p db = true := by
    rcases hpt with h | h <;>
      simp [createValid, h, hpi, hc1, hc2]
  have hvq : createValid u q db = true := by
    rcases hqi with h | h <;>
      simp [createValid, h, hqt, hd1, hd2]
  rw [createRecipe_eq_of_valid db u p hvp, createRecipe_eq_of_valid db u q hvq]
  constructor
  · refine ⟨rfl, createdRow u p db,
      List.mem_append_right _ (List.mem_cons_self _ _), rfl, rfl, ?_, ?_, ?_⟩
    · rcases hpt with h | h <;> simp [createdRow, h]
    · rcases hpt with h | h <;> simp [createdRow, h, htne, Ne.symm htne]
    · intro x
      rcases hpt with h | h <;> simp [createdRow, h] <;> tauto
  · refine ⟨rfl, createdRow u q db,
      List.mem_append_right _ (List.mem_cons_self _ _), rfl, rfl, ?_, ?_, ?_⟩
    · rcases hqi with h | h <;> simp [createdRow, h]
    · rcases hqi with h | h <;> simp [createdRow, h, hine, Ne.symm hine]
    · intro x
      rcases hqi with h | h <;> simp [createdRow, h] <;> tauto

theorem findOwned_id_user (db : DB) (u rid : Nat) (r : Recipe)
    (hf : findOwned db u rid = some r) : r.id = rid ∧ r.user = u := by
  have hp := List.find?_some hf
  simp only [Bool.and_eq_true, beq_iff_eq] at hp
  exact hp

theorem findOwned_replace (db : DB) (u rid : Nat) (r r2 : Recipe)
    (hf : findOwned db u rid = some r)
    (hid : r2.id = rid) (hu : r2.user = u) :
    findOwned (replaceRecipe db rid r2) u rid = some r2 :=
  find?_map_replace db.recipes rid u r r2 hid hu hf

/-- Claim C5: for every recipe owned by the caller, PATCH /recipes/(id)
with a payload naming only some fields leaves every unspecified field of
the recipe unchanged, and if the payload contains a tags list, the recipe
tag set afterward is exactly the tags in the payload (the previous tags
are removed, not merged). -/
theorem patchRecipe_partial_update (db : DB) (u rid : Nat)
    (p : PatchPayload) (r : Recipe) (hf : findOwned db u rid = some r) :
    (patchRecipe (some u) rid p db).1 = 200 ∧
    ∃ r2, findOwned (patchRecipe (some u) rid p db).2 u rid = some r2 ∧
      (∀ s, p.title = some s → r2.title = s) ∧
      (p.title = none → r2.title = r.title) ∧
      (p.time_minutes = none → r2.time_minutes = r.time_minutes) ∧
      (p.price = none → r2.price = r.price) ∧
      (∀ l, p.tags = some l → r2.tags = l) ∧
      (p.tags = none → r2.tags = r.tags) ∧
      (p.ingredients = none → r2.ingredients = r.ingredients) ∧
      r2.image = r.image ∧ r2.id = r.id ∧ r2.user = r.user := by
  obtain ⟨hid, hu⟩ := findOwned_id_user db u rid r hf
  have hres : patchRecipe (some u) rid p db =
      (200, replaceRecipe db rid (applyPatch p r)) := by
    simp only [patchRecipe, hf]
  rw [hres]
  refine ⟨rfl, applyPatch p r,
    findOwned_replace db u rid r (applyPatch p r) hf hid hu,
    ?_, ?_, ?_, ?_, ?_, ?_, ?_, rfl, rfl, rfl⟩
  · intro s hs; simp [applyPatch, hs]
  · intro hs; simp [applyPatch, hs]
  · intro hs; simp [applyPatch, hs]
  · intro hs; simp [applyPatch, hs]
  · intro l hl; simp [applyPatch, hl]
  · intro hs; simp [applyPatch, hs]
  · intro hs; simp [applyPatch, hs]

/-- Claim C6: for every recipe owned by the caller, PUT /recipes/(id) with
a payload of title, time_minutes and price and no tags field sets the
recipe title, time_minutes and price to the payload values and leaves the
recipe with zero tags, even if it had tags before (full-replace semantics,
not merge). -/
theorem putRecipe_full_update (db : DB) (u rid : Nat)
    (p : PutPayload) (r : Recipe) (hf : findOwned db u rid = some r)
    (ht : p.tags = none) :
    (putRecipe (some u) rid p db).1 = 200 ∧
    ∃ r2, findOwned (putRecipe (some u) rid p db).2 u rid = some r2 ∧
      r2.title = p.title ∧ r2.time_minutes = p.time_minutes ∧
      r2.price = p.price ∧ r2.tags = [] ∧ r2.tags.length = 0 ∧
      r2.id = r.id ∧ r2.user = r.user := by
  obtain ⟨hid, hu⟩ := findOwned_id_user db u rid r hf
  have hres : putRecipe (some u) rid p db =
      (200, replaceRecipe db rid (applyPut p r)) := by
    simp only [putRecipe, hf]
  rw [hres]
  exact ⟨rfl, applyPut p r,
    findOwned_replace db u rid r (applyPut p r) hf hid hu,
    rfl, rfl, rfl, by simp [applyPut, ht], by simp [applyPut, ht], rfl, rfl⟩

/-- Claim C7: for every recipe owned by the caller, POST
/recipes/(id)/upload-image with a valid JPEG as multipart returns status
200, the response body contains the stored image reference under the
`image` key, and the recipe image file exists on disk; with a non-image
payload it returns status 400. -/
theorem uploadImage_valid_and_invalid (db : DB) (disk : List String)
    (u rid : Nat) (r : Recipe) (f g : UploadFile)
    (hf : findOwned db u rid = some r)
    (hv : f.isValidImage = true) (hg : g.isValidImage = false) :
    (uploadImage (some u) rid f db disk).1.1 = 200 ∧
    (uploadImage (some u) rid f db disk).1.2 = some (imagePath rid f) ∧
    imagePath rid f ∈ (uploadImage (some u) rid f db disk).2.2 ∧
    (∃ r2, findOwned (uploadImage (some u) rid f db disk).2.1 u rid =
        some r2 ∧ r2.image = some (imagePath rid f)) ∧
    (uploadImage (some u) rid g db disk).1.1 = 400 ∧
    (uploadImage (some u) rid g db disk).2.1 = db := by
  obtain ⟨hid, hu⟩ := findOwned_id_user db u rid r hf
  have hok : uploadImage (some u) rid f db disk =
      ((200, some (imagePath rid f)),
        replaceRecipe db rid { r with image := some (imagePath rid f) },
        imagePath rid f :: disk) := by
    simp only [uploadImage, hf]
    rw [if_pos hv]
  have hbad : uploadImage (some u) rid g db disk = ((400, none), db, disk) := by
    simp only [uploadImage, hf]
    rw [if_neg (by rw [hg]; exact Bool.false_ne_true)]
  rw [hok, hbad]
  exact ⟨rfl, rfl, List.mem_cons_self _ _,
    ⟨{ r with image := some (imagePath rid f) },
      findOwned_replace db u rid r _ hf hid hu, rfl⟩, rfl, rfl⟩

/-- Claim C8: for every recipe owned by the caller, GET /recipes/(id)
returns status 200 with a body equal to the detail serialization of that
recipe, including its nested tag and ingredient objects. -/
theorem detailRecipe_returns_detail (db : DB) (u rid : Nat) (r : Recipe)
    (hf : findOwned db u rid = some r) :
    detailRecipe (some u) rid db = (200, some (serializeDetail db r)) ∧
    (∀ t, t ∈ (serializeDetail db r).tags ↔ t ∈ db.tags ∧ t.id ∈ r.tags) ∧
    (∀ i, i ∈ (serializeDetail db r).ingredients ↔
      i ∈ db.ingredients ∧ i.id ∈ r.ingredients) := by
  refine ⟨by simp only [detailRecipe, hf], ?_, ?_⟩
  · intro t
    simp [serializeDetail]
  · intro i
    simp [serializeDetail]

/-- Claim C9: for every authenticated superuser, the admin user-changelist
page returns status 200 and its response body contains the plain-text name
and email of every existing user; the user change page and the user add
page also return status 200. -/
theorem admin_user_pages (db : DB) (uid : Nat) (a t : User)
    (hfind : db.users.find? (fun x => x.id == uid) = some a)
    (hsup : a.isSuperuser = true) (ht : t ∈ db.users) :
    (adminUserChangelist (some uid) db).1 = 200 ∧
    (∃ body, (adminUserChangelist (some uid) db).2 = some body ∧
      ∀ x, x ∈ db.users →
        (∃ s1 s2, body = s1 ++ (x.name.data ++ s2)) ∧
        (∃ s1 s2, body = s1 ++ (x.email.data ++ s2))) ∧
    adminUserChangePage (some uid) t.id db = 200 ∧
    adminUserAddPage (some uid) db = 200 := by
  have hadmin : isAdmin (some uid) db = true := by
    simp only [isAdmin, hfind]
    exact hsup
  refine ⟨by simp [adminUserChangelist, hadmin], ?_, ?_, ?_⟩
  · refine ⟨changelistBody db, by simp [adminUserChangelist, hadmin], ?_⟩
    intro x hx
    obtain ⟨l1, l2, hsplit⟩ := List.append_of_mem hx
    have hbody : changelistBody db =
        (l1.map renderUserRow).flatten ++
          (renderUserRow x ++ (l2.map renderUserRow).flatten) := by
      rw [changelistBody, hsplit]
      simp
    constructor
    · exact ⟨(l1.map renderUserRow).flatten,
        (' ' :: x.email.data) ++ '\n' :: (l2.map renderUserRow).flatten,
        by rw [hbody]; simp [renderUserRow]⟩
    · exact ⟨(l1.map renderUserRow).flatten ++ (x.name.data ++ [' ']),
        '\n' :: (l2.map renderUserRow).flatten,
        by rw [hbody]; simp [renderUserRow]⟩
  · have hany : db.users.any (fun x => x.id == t.id) = true :=
      List.any_eq_true.mpr ⟨t, ht, by simp⟩
    simp [adminUserChangePage, hadmin, hany]
  · simp [adminUserAddPage, hadmin]

/-- Claim C10: for every successful POST /recipes, the 201 response body
contains a key `id` whose value is the database id of the newly persisted
recipe, so that a recipe with exactly that id exists and can be fetched
afterward. -/
theorem createRecipe_reports_persisted_id (db : DB) (u rid : Nat)
    (p : CreatePayload)
    (hwf : ∀ r, r ∈ db.recipes → r.id < db.nextId)
    (hok : (createRecipe (some u) p db).1 = (201, some rid)) :
    ∃ r, findOwned (createRecipe (some u) p db).2 u rid = some r ∧
      r ∈ (createRecipe (some u) p db).2.recipes ∧ r.id = rid ∧ r.user = u ∧
      detailRecipe (some u) rid (createRecipe (some u) p db).2 =
        (200, some (serializeDetail (createRecipe (some u) p db).2 r)) := by
  rcases hcv : createValid u p db with hfalse | htrue
  · rw [createRecipe_eq_of_invalid db u p hcv] at hok
    simp at hok
  · have heq := createRecipe_eq_of_valid db u p hcv
    rw [heq] at hok
    have hrid : rid = db.nextId := by
      simpa using hok.symm
    subst hrid
    rw [heq]
    have hleft : ∀ x, x ∈ db.recipes →
        (fun y : Recipe => y.id == db.nextId && y.user == u) x = false := by
      intro x hx
      have : x.id ≠ db.nextId := Nat.ne_of_lt (hwf x hx)
      simp [this]
    have hfound : findOwned
        { db with recipes := db.recipes ++ [createdRow u p db],
                  nextId := db.nextId + 1 } u db.nextId =
        some (createdRow u p db) := by
      show (db.recipes ++ [createdRow u p db]).find?
        (fun x => x.id == db.nextId && x.user == u) = some (createdRow u p db)
      rw [find?_append_of_left_false db.recipes _ hleft]
      exact List.find?_cons_of_pos _ (by simp [createdRow])
    exact ⟨createdRow u p db, hfound,
      List.mem_append_right _ (List.mem_cons_self _ _), rfl, rfl,
      by simp only [detailRecipe, hfound]⟩

/-! ## Witnesses: the claims instantiated at the concrete fixtures -/

/-- Witness for claim C1 at the concrete database, user 2. -/
theorem listRecipes_scoped_to_owner_witness :
    (dbW.recipes.map Recipe.id).Nodup ∧
    ((listRecipes (some 2) dbW).1 = 200 ∧
    ∃ body, (listRecipes (some 2) dbW).2 = some body ∧
      (∀ d ∈ body, ∃ r, r ∈ dbW.recipes ∧ r.user = 2 ∧ d = serializeRecipe r) ∧
      (∀ r, r ∈ dbW.recipes → r.user = 2 → serializeRecipe r ∈ body) ∧
      (∀ r, r ∈ dbW.recipes → r.user ≠ 2 → serializeRecipe r ∉ body) ∧
      body.Pairwise (fun a b => b.id ≤ a.id)) :=
  ⟨by decide, listRecipes_scoped_to_owner dbW 2 (by decide)⟩

/-- Witness for claim C3 at the concrete database, user 2. -/
theorem createRecipe_basic_witness :
    payloadBasic.tags = none ∧ payloadBasic.ingredients = none ∧
    ((createRecipe (some 2) payloadBasic dbW).1 = (201, some dbW.nextId) ∧
    ∃ r, r ∈ (createRecipe (some 2) payloadBasic dbW).2.recipes ∧
      r.id = dbW.nextId ∧ r.user = 2 ∧ r.title = payloadBasic.title ∧
      r.time_minutes = payloadBasic.time_minutes ∧
      r.price = payloadBasic.price ∧ r.tags = [] ∧ r.ingredients = []) :=
  ⟨rfl, rfl, createRecipe_basic dbW 2 payloadBasic rfl rfl⟩

/-- Witness for claim C4 at the concrete database, user 2. -/
theorem createRecipe_two_refs_witness :
    tagVegan ∈ dbW.tags ∧ tagDessert ∈ dbW.tags ∧
    tagVegan.user = 2 ∧ tagDessert.user = 2 ∧ tagVegan.id ≠ tagDessert.id ∧
    (payloadTags.tags = some [tagVegan.id, tagDessert.id] ∨
      payloadTags.tags = some [tagDessert.id, tagVegan.id]) ∧
    payloadTags.ingredients = none ∧
    ingPrawns ∈ dbW.ingredients ∧ ingGinger ∈ dbW.ingredients ∧
    ingPrawns.user = 2 ∧ ingGinger.user = 2 ∧ ingPrawns.id ≠ ingGinger.id ∧
    (payloadIngredients.ingredients = some [ingPrawns.id, ingGinger.id] ∨
      payloadIngredients.ingredients = some [ingGinger.id, ingPrawns.id]) ∧
    payloadIngredients.tags = none ∧
    (((createRecipe (some 2) payloadTags dbW).1.1 = 201 ∧
      ∃ r, r ∈ (createRecipe (some 2) payloadTags dbW).2.recipes ∧
        r.id = dbW.nextId ∧ r.user = 2 ∧ r.tags.length = 2 ∧ r.tags.Nodup ∧
        (∀ x, x ∈ r.tags ↔ x = tagVegan.id ∨ x = tagDessert.id)) ∧
    ((createRecipe (some 2) payloadIngredients dbW).1.1 = 201 ∧
      ∃ r, r ∈ (createRecipe (some 2) payloadIngredients dbW).2.recipes ∧
        r.id = dbW.nextId ∧ r.user = 2 ∧ r.ingredients.length = 2 ∧
        r.ingredients.Nodup ∧
        (∀ x, x ∈ r.ingredients ↔ x = ingPrawns.id ∨ x = ingGinger.id))) :=
  ⟨by decide, by decide, rfl, rfl, by decide, Or.inl rfl, rfl,
    by decide, by decide, rfl, rfl, by decide, Or.inl rfl, rfl,
    createRecipe_two_refs dbW 2 payloadTags payloadIngredients tagVegan
      tagDessert ingPrawns ingGinger (by decide) (by decide) rfl rfl
      (by decide) (Or.inl rfl) rfl (by decide) (by decide) rfl rfl
      (by decide) (Or.inl rfl) rfl⟩

/-- Witness for claim C5 at the concrete database, user 2, recipe 1. -/
theorem patchRecipe_partial_update_witness :
    findOwned dbW 2 1 = some recipeSample ∧
    ((patchRecipe (some 2) 1 payloadPatch dbW).1 = 200 ∧
    ∃ r2, findOwned (patchRecipe (some 2) 1 payloadPatch dbW).2 2 1 =
        some r2 ∧
      (∀ s, payloadPatch.title = some s → r2.title = s) ∧
      (payloadPatch.title = none → r2.title = recipeSample.title) ∧
      (payloadPatch.time_minutes = none →
        r2.time_minutes = recipeSample.time_minutes) ∧
      (payloadPatch.price = none → r2.price = recipeSample.price) ∧
      (∀ l, payloadPatch.tags = some l → r2.tags = l) ∧
      (payloadPatch.tags = none → r2.tags = recipeSample.tags) ∧
      (payloadPatch.ingredients = none →
        r2.ingredients = recipeSample.ingredients) ∧
      r2.image = recipeSample.image ∧ r2.id = recipeSample.id ∧
      r2.user = recipeSample.user) :=
  ⟨by decide,
    patchRecipe_partial_update dbW 2 1 payloadPatch recipeSample (by decide)⟩

/-- Witness for claim C6 at the concrete database, user 2, recipe 1. -/
theorem putRecipe_full_update_witness :
    findOwned dbW 2 1 = some recipeSample ∧ payloadPut.tags = none ∧
    ((putRecipe (some 2) 1 payloadPut dbW).1 = 200 ∧
    ∃ r2, findOwned (putRecipe (some 2) 1 payloadPut dbW).2 2 1 = some r2 ∧
      r2.title = payloadPut.title ∧
      r2.time_minutes = payloadPut.time_minutes ∧
      r2.price = payloadPut.price ∧ r2.tags = [] ∧ r2.tags.length = 0 ∧
      r2.id = recipeSample.id ∧ r2.user = recipeSample.user) :=
  ⟨by decide, rfl,
    putRecipe_full_update dbW 2 1 payloadPut recipeSample (by decide) rfl⟩

/-- Witness for claim C7 at the concrete database, user 2, recipe 1. -/
theorem uploadImage_valid_and_invalid_witness :
    findOwned dbW 2 1 = some recipeSample ∧
    jpegFile.isValidImage = true ∧ notImageFile.isValidImage = false ∧
    ((uploadImage (some 2) 1 jpegFile dbW []).1.1 = 200 ∧
    (uploadImage (some 2) 1 jpegFile dbW []).1.2 = some (imagePath 1 jpegFile) ∧
    imagePath 1 jpegFile ∈ (uploadImage (some 2) 1 jpegFile dbW []).2.2 ∧
    (∃ r2, findOwned (uploadImage (some 2) 1 jpegFile dbW []).2.1 2 1 =
        some r2 ∧ r2.image = some (imagePath 1 jpegFile)) ∧
    (uploadImage (some 2) 1 notImageFile dbW []).1.1 = 400 ∧
    (uploadImage (some 2) 1 notImageFile dbW []).2.1 = dbW) :=
  ⟨by decide, rfl, rfl,
    uploadImage_valid_and_invalid dbW [] 2 1 recipeSample jpegFile
      notImageFile (by decide) rfl rfl⟩

/-- Witness for claim C8 at the concrete database, user 2, recipe 1. -/
theorem detailRecipe_returns_detail_witness :
    findOwned dbW 2 1 = some recipeSample ∧
    (detailRecipe (some 2) 1 dbW = (200, some (serializeDetail dbW recipeSample)) ∧
    (∀ t, t ∈ (serializeDetail dbW recipeSample).tags ↔
      t ∈ dbW.tags ∧ t.id ∈ recipeSample.tags) ∧
    (∀ i, i ∈ (serializeDetail dbW recipeSample).ingredients ↔
      i ∈ dbW.ingredients ∧ i.id ∈ recipeSample.ingredients)) :=
  ⟨by decide, detailRecipe_returns_detail dbW 2 1 recipeSample (by decide)⟩

/-- Witness for claim C9 at the concrete database, superuser 1. -/
theorem admin_user_pages_witness :
    dbW.users.find? (fun x => x.id == 1) = some userAdmin ∧
    userAdmin.isSuperuser = true ∧ userTest ∈ dbW.users ∧
    ((adminUserChangelist (some 1) dbW).1 = 200 ∧
    (∃ body, (adminUserChangelist (some 1) dbW).2 = some body ∧
      ∀ x, x ∈ dbW.users →
        (∃ s1 s2, body = s1 ++ (x.name.data ++ s2)) ∧
        (∃ s1 s2, body = s1 ++ (x.email.data ++ s2))) ∧
    adminUserChangePage (some 1) userTest.id dbW = 200 ∧
    adminUserAddPage (some 1) dbW = 200) :=
  ⟨by decide, rfl, by decide,
    admin_user_pages dbW 1 userAdmin userTest (by decide) rfl (by decide)⟩

/-- Witness for claim C10 at the concrete database, user 2. -/
theorem createRecipe_reports_persisted_id_witness :
    (∀ r, r ∈ dbW.recipes → r.id < dbW.nextId) ∧
    (createRecipe (some 2) payloadBasic dbW).1 = (201, some 3) ∧
    (∃ r, findOwned (createRecipe (some 2) payloadBasic dbW).2 2 3 = some r ∧
      r ∈ (createRecipe (some 2) payloadBasic dbW).2.recipes ∧ r.id = 3 ∧
      r.user = 2 ∧
      detailRecipe (some 2) 3 (createRecipe (some 2) payloadBasic dbW).2 =
        (200, some (serializeDetail (createRecipe (some 2) payloadBasic dbW).2
          r))) :=
  ⟨by decide, by decide,
    createRecipe_reports_persisted_id dbW 2 3 payloadBasic (by decide)
      (by decide)⟩

end RecipeApp
